import Mathlib

set_option maxRecDepth 100000

/-!
Shallow embedding of the obgnail/binlog-parser decode engine (Go) in Lean 4.

The embedding follows the Go sources `decoder.go` (embedded in README),
`event.go` (embedded in README) and `rows_event.go`.  Byte strings are
`List Nat` (each element a byte value 0..255), machine integers are `Nat`
or `Int` (`int64` fields become `Int`), Go slice-indexing panics become
`Option`/`Except` failures, and the `bufio`-backed byte stream becomes an
explicit `List Nat` threaded through the decoder state.

Helpers that live in repository files not present under `src/`
(`utils.go`, `const.go`: `FixedLengthInt`, `LengthEncodedInt`,
`LengthEncodedString`, `ReadNBytes`, `ChecksumValidate`, `hasChecksum`,
`binlogChecksumLength`, the event-type and field-type constants) are
modelled from the spec; each carries a doc comment saying so.
-/

namespace Binlog

/-- Errors of the decode pipeline.  Go distinguishes the `io.EOF` sentinel
(compared with `==` in `WalkEvent`) from every other error; we keep that
distinction and collapse all other errors (including Go panics from
out-of-range slice indexing) into `other`. -/
inductive DecodeErr where
  | ioEOF
  | other (msg : String)
  deriving DecidableEq, Repr

/-- Go `data[i]`: `none` models the out-of-range panic. -/
def byteAt (data : List Nat) (i : Nat) : Option Nat := data.get? i

/-- Go `data[a:b]`: defined when `a ≤ b ≤ len(data)`, else panic. -/
def sliceRange (data : List Nat) (a b : Nat) : Option (List Nat) :=
  if a ≤ b ∧ b ≤ data.length then some ((data.take b).drop a) else none

/-- Go `data[i:]`: defined when `i ≤ len(data)`, else panic. -/
def sliceFrom (data : List Nat) (i : Nat) : Option (List Nat) :=
  if i ≤ data.length then some (data.drop i) else none

/-- Little-endian 16-bit read at offset `i` (total; used under a bound). -/
def u16at (data : List Nat) (i : Nat) : Nat :=
  data.getD i 0 + 256 * data.getD (i+1) 0

/-- Little-endian 32-bit read at offset `i` (total; used under a bound). -/
def u32at (data : List Nat) (i : Nat) : Nat :=
  data.getD i 0 + 256 * data.getD (i+1) 0 + 65536 * data.getD (i+2) 0 +
    16777216 * data.getD (i+3) 0

/-- Little-endian 64-bit read at offset `i` (total; used under a bound). -/
def u64at (data : List Nat) (i : Nat) : Nat :=
  u32at data i + 4294967296 * u32at data (i+4)

/-- Go `binary.LittleEndian.Uint16(data[i:])`; panics (`none`) when fewer
than 2 bytes remain. -/
def readU16LE (data : List Nat) (i : Nat) : Option Nat :=
  if i + 2 ≤ data.length then some (u16at data i) else none

/-- Go `binary.LittleEndian.Uint32(data[i:])`; panics (`none`) when fewer
than 4 bytes remain. -/
def readU32LE (data : List Nat) (i : Nat) : Option Nat :=
  if i + 4 ≤ data.length then some (u32at data i) else none

/-- Go `binary.LittleEndian.Uint64(data[i:])`; panics (`none`) when fewer
than 8 bytes remain. -/
def readU64LE (data : List Nat) (i : Nat) : Option Nat :=
  if i + 8 ≤ data.length then some (u64at data i) else none

/-- Modelled from the spec (`utils.go` is not under `src/`):
`readFixedLengthInt` — the little-endian unsigned integer over the whole
supplied slice (callers pass an exactly-sized sub-slice). -/
def FixedLengthInt (bs : List Nat) : Nat :=
  bs.foldr (fun b acc => acc * 256 + b) 0

/-- Modelled from the spec (`utils.go` is not under `src/`):
`readPackedInt` / `LengthEncodedInt`.  Returns (value, nullFlag,
bytesConsumed); `none` models the `Truncated` failure.  The spec leaves a
first byte of `0xFF` unspecified; we treat it as a failure as well (no
claim exercises it). -/
def LengthEncodedInt (data : List Nat) : Option (Nat × Bool × Nat) :=
  match data with
  | [] => none
  | b :: rest =>
    if b ≤ 0xFA then some (b, false, 1)
    else if b = 0xFB then some (0, true, 1)
    else if b = 0xFC then
      if 2 ≤ rest.length then some (u16at rest 0, false, 3) else none
    else if b = 0xFD then
      if 3 ≤ rest.length then
        some (rest.getD 0 0 + 256 * rest.getD 1 0 + 65536 * rest.getD 2 0, false, 4)
      else none
    else if b = 0xFE then
      if 8 ≤ rest.length then some (u64at rest 0, false, 9) else none
    else none

/-- Modelled from the spec (`utils.go` is not under `src/`):
`readPackedString` / `LengthEncodedString` — a packed-integer length
followed by that many raw bytes.  Returns (bytes, nullFlag,
bytesConsumed); `none` models `Truncated`. -/
def LengthEncodedString (data : List Nat) : Option (List Nat × Bool × Nat) :=
  match LengthEncodedInt data with
  | none => none
  | some (v, isnull, n) =>
    if isnull then some ([], true, n)
    else if n + v ≤ data.length then some (((data.drop n).take v), false, n + v)
    else none

/-- `rows_event.go`: `bitmapByteSize(columnCount) = (columnCount + 7) / 8`. -/
def bitmapByteSize (columnCount : Nat) : Nat := (columnCount + 7) / 8

/-- Modelled from the spec (byte-source contract `readExactly`):
`ReadNBytes(rd, n)` on the buffered stream.  Reading at end of stream is
the `io.EOF` sentinel; a short (truncated) read is a distinct failure; a
negative count is a failure (Go would panic allocating the buffer). -/
def ReadNBytes (s : List Nat) (n : Int) : Except DecodeErr (List Nat × List Nat) :=
  if n < 0 then .error (.other "negative read length")
  else if n.toNat ≤ s.length then .ok (s.take n.toNat, s.drop n.toNat)
  else if s.length = 0 then .error .ioEOF
  else .error (.other "unexpected end of stream")

/-- `event.go`: `defaultEventHeaderSize = 19`. -/
def defaultEventHeaderSize : Int := 19

/-- `event.go`: `BinEventHeader` (int64 fields become `Int`). -/
structure BinEventHeader where
  Timestamp : Int
  EventType : Nat
  ServerID : Int
  EventSize : Int
  LogPos : Int
  Flag : Nat
  deriving DecidableEq, Repr

/-- Go `time.Time`, reduced to the two observations the decoder makes of
it: `Unix()` and `IsZero()`. -/
structure GoTime where
  unix : Int
  isZero : Bool
  deriving DecidableEq, Repr

/-- The zero `time.Time` (the value an unset option field holds):
`IsZero()` is true and `Unix()` is -62135596800 (Jan 1, year 1 UTC). -/
def goZeroTimeUnix : Int := -62135596800

def goZeroTime : GoTime := ⟨goZeroTimeUnix, true⟩

/-- `decoder.go`: `BinReaderOption`. -/
structure BinReaderOption where
  StartPos : Int
  EndPos : Int
  StartTime : GoTime
  EndTime : GoTime
  deriving DecidableEq, Repr

/-- `decoder.go`: `(option *BinReaderOption) Start(header)`.  A `nil`
receiver is `none`.  Note `time.Unix(header.Timestamp, 0).Unix()` is
`header.Timestamp`. -/
def BinReaderOption.Start : Option BinReaderOption → BinEventHeader → Bool
  | none, _ => true
  | some o, header =>
    if o.StartPos ≠ 0 ∧ o.StartPos ≤ header.LogPos - header.EventSize then true
    else if o.StartTime.unix ≤ header.Timestamp then true
    else false

/-- `decoder.go`: `(option *BinReaderOption) Stop(header)`. -/
def BinReaderOption.Stop : Option BinReaderOption → BinEventHeader → Bool
  | none, _ => false
  | some o, header =>
    if o.EndPos ≠ 0 ∧ o.EndPos < header.LogPos then true
    else if ¬ o.EndTime.isZero ∧ o.EndTime.unix ≤ header.Timestamp then true
    else false

/-- `event.go`: `decodeEventHeader(data, size)`.  Fails when fewer than
`size` bytes are supplied; reads the fixed little-endian layout, the
log-position and flags fields only when `size > 13`. -/
def decodeEventHeader (data : List Nat) (size : Int) : Option BinEventHeader :=
  if (data.length : Int) < size then none
  else
    (readU32LE data 0).bind fun ts =>
    (byteAt data 4).bind fun et =>
    (readU32LE data 5).bind fun sid =>
    (readU32LE data 9).bind fun es =>
    if 13 < size then
      (readU32LE data 13).bind fun lp =>
      (readU16LE data 17).bind fun fl =>
      some ⟨(ts : Int), et, (sid : Int), (es : Int), (lp : Int), fl⟩
    else some ⟨(ts : Int), et, (sid : Int), (es : Int), 0, 0⟩

/-- Modelled from the spec (`const.go` is not under `src/`): the standard
MySQL binlog event-type codes named by the decoder. -/
def UnknownEvent : Nat := 0
def QueryEvent : Nat := 2
def RotateEvent : Nat := 4
def IntvarEvent : Nat := 5
def FormatDescriptionEvent : Nat := 15
def XIDEvent : Nat := 16
def TableMapEvent : Nat := 19
def WriteRowsEventV0 : Nat := 20
def UpdateRowsEventV0 : Nat := 21
def DeleteRowsEventV0 : Nat := 22
def WriteRowsEventV1 : Nat := 23
def UpdateRowsEventV1 : Nat := 24
def DeleteRowsEventV1 : Nat := 25
def WriteRowsEventV2 : Nat := 30
def UpdateRowsEventV2 : Nat := 31
def DeleteRowsEventV2 : Nat := 32
def AnonymousGTIDEvent : Nat := 34
def PreviousGTIDEvent : Nat := 35

/-- Modelled from the spec (`const.go` is not under `src/`): membership in
the `EventType2Str` map — the known event-type codes (the full standard
table runs from 0 to 35). -/
def knownEventType (t : Nat) : Bool := t ≤ 35

/-- The ASCII whitespace bytes recognized by Go `strings.TrimSpace`
(`\t \n \v \f \r` and space).  Our trimming theorems restrict inputs to
ASCII, where Go trims exactly these bytes. -/
def goIsSpace (b : Nat) : Bool := b = 9 ∨ b = 10 ∨ b = 11 ∨ b = 12 ∨ b = 13 ∨ b = 32

def trimLeftSpace (s : List Nat) : List Nat := s.dropWhile goIsSpace

def trimRightSpace (s : List Nat) : List Nat := (s.reverse.dropWhile goIsSpace).reverse

/-- Go `strings.TrimSpace` on ASCII bytes: trims whitespace from BOTH ends. -/
def TrimSpace (s : List Nat) : List Nat := trimRightSpace (trimLeftSpace s)

/-- Go `bytes.Trim(s, cutset)` for a one-byte cutset: trims the byte `c`
from both ends.  `decodeFmtDescEvent` calls it with
`strconv.Itoa(0x00) = "0"`, i.e. the character `0` (0x30), not NUL. -/
def trimByte (c : Nat) (s : List Nat) : List Nat :=
  ((s.dropWhile (· = c)).reverse.dropWhile (· = c)).reverse

/-- Strict lexicographic byte-string order (used by the modelled
checksum-enablement heuristic). -/
def lexLtBytes : List Nat → List Nat → Bool
  | [], [] => false
  | [], _ :: _ => true
  | _ :: _, [] => false
  | a :: as, b :: bs => if a < b then true else if b < a then false else lexLtBytes as bs

/-- Modelled from the spec (`utils.go` is not under `src/`):
`hasChecksum(serverVersion)` — checksums are treated as enabled unless the
server version predates the feature (MySQL 5.6.1); the spec leaves the
exact comparison open, we model it as: enabled iff the version string is
not lexicographically below "5.6.1". -/
def hasChecksum (version : List Nat) : Bool :=
  ¬ lexLtBytes version [53, 46, 54, 46, 49]

/-- `event.go`: `BinFmtDescEvent` (the cached `hasCheckSum` field
included). -/
structure BinFmtDescEvent where
  BinlogVersion : Nat
  MySQLVersion : List Nat
  CreateTime : Nat
  EventHeaderLength : Int
  EventTypeHeader : List Nat
  hasCheckSum : Bool
  deriving DecidableEq, Repr

/-- `event.go`: `decodeFmtDescEvent(data)`.  2-byte version, 50-byte
server-version region trimmed of the byte `0x30` (see `trimByte`), 4-byte
create time, 1-byte header length, remainder the per-type header-length
table. -/
def decodeFmtDescEvent (data : List Nat) : Option BinFmtDescEvent :=
  (readU16LE data 0).bind fun bv =>
  (sliceRange data 2 52).bind fun versionRaw =>
  (readU32LE data 52).bind fun ct =>
  (byteAt data 56).bind fun hl =>
  (sliceFrom data 57).bind fun eth =>
  let mv := trimByte 48 versionRaw
  some ⟨bv, mv, ct, (hl : Int), eth, hasChecksum mv⟩

/-- `event.go`: `BinQueryEvent` (strings kept as byte lists). -/
structure BinQueryEvent where
  SlaveProxyID : Int
  ExecutionTime : Int
  ErrorCode : Nat
  statusVarsLength : Nat
  StatusVars : List Nat
  Schema : List Nat
  Query : List Nat
  deriving DecidableEq, Repr

/-- `event.go`: `decodeQueryEvent(data, binlogVersion)`. -/
def decodeQueryEvent (data : List Nat) (binlogVersion : Nat) : Option BinQueryEvent :=
  (readU32LE data 0).bind fun sp =>
  (readU32LE data 4).bind fun et =>
  (byteAt data 8).bind fun schemaLength =>
  (readU16LE data 9).bind fun ec =>
  if 4 ≤ binlogVersion then
    (readU16LE data 11).bind fun svl =>
    (sliceRange data 13 (13 + svl)).bind fun sv =>
    (sliceRange data (13 + svl) (13 + svl + schemaLength)).bind fun schema =>
    (sliceFrom data (13 + svl + schemaLength + 1)).bind fun q =>
    some ⟨(sp : Int), (et : Int), ec, svl, sv, schema, q⟩
  else
    (sliceRange data 11 (11 + schemaLength)).bind fun schema =>
    (sliceFrom data (11 + schemaLength + 1)).bind fun q =>
    some ⟨(sp : Int), (et : Int), ec, 0, [], schema, q⟩

/-- `event.go`: `BinXIDEvent`. -/
structure BinXIDEvent where
  XID : Nat
  deriving DecidableEq, Repr

/-- `event.go`: `decodeXIDEvent(data)`. -/
def decodeXIDEvent (data : List Nat) : Option BinXIDEvent :=
  (readU64LE data 0).bind fun x => some ⟨x⟩

/-- `event.go`: `BinIntvarEvent` (the Go field is named `Type`, a keyword
in Lean, so it is rendered `Typ`). -/
structure BinIntvarEvent where
  Typ : Nat
  Value : Nat
  deriving DecidableEq, Repr

/-- `event.go`: `decodeIntvarEvent(data)`. -/
def decodeIntvarEvent (data : List Nat) : Option BinIntvarEvent :=
  (byteAt data 0).bind fun t =>
  (readU64LE data 1).bind fun v =>
  some ⟨t, v⟩

/-- `event.go`: `BinRotateEvent`. -/
structure BinRotateEvent where
  Position : Nat
  FileName : List Nat
  deriving DecidableEq, Repr

/-- `event.go`: `decodeRotateEvent(data, binlogVersion)`.  When the binlog
protocol version is greater than 1 the first 8 bytes are the next-file
position, otherwise the `Position` field keeps its Go zero value 0; the
rest is the file name passed through `strings.TrimSpace`. -/
def decodeRotateEvent (data : List Nat) (binlogVersion : Nat) : Option BinRotateEvent :=
  if 1 < binlogVersion then
    (readU64LE data 0).bind fun p =>
    some ⟨p, TrimSpace (data.drop 8)⟩
  else some ⟨0, TrimSpace data⟩

/-- `event.go`: `decodeUnSupportEvent(data)` keeps the raw bytes. -/
def decodeUnSupportEvent (data : List Nat) : List Nat := data

/-- Modelled from the spec (`const.go` is not under `src/`): the standard
MySQL column-type codes used by `rows_event.go`. -/
def MySQLTypeDecimal : Nat := 0
def MySQLTypeTiny : Nat := 1
def MySQLTypeShort : Nat := 2
def MySQLTypeLong : Nat := 3
def MySQLTypeFloat : Nat := 4
def MySQLTypeDouble : Nat := 5
def MySQLTypeNull : Nat := 6
def MySQLTypeTimestamp : Nat := 7
def MySQLTypeLonglong : Nat := 8
def MySQLTypeInt24 : Nat := 9
def MySQLTypeDate : Nat := 10
def MySQLTypeTime : Nat := 11
def MySQLTypeDatetime : Nat := 12
def MySQLTypeYear : Nat := 13
def MySQLTypeNewDate : Nat := 14
def MySQLTypeVarchar : Nat := 15
def MySQLTypeBit : Nat := 16
def MySQLTypeTimestamp2 : Nat := 17
def MySQLTypeDatetime2 : Nat := 18
def MySQLTypeTime2 : Nat := 19
def MySQLTypeJSON : Nat := 245
def MySQLTypeNewDecimal : Nat := 246
def MySQLTypeEnum : Nat := 247
def MySQLTypeSet : Nat := 248
def MySQLTypeTinyBlob : Nat := 249
def MySQLTypeMediumBlob : Nat := 250
def MySQLTypeLongBlob : Nat := 251
def MySQLTypeBlob : Nat := 252
def MySQLTypeVarString : Nat := 253
def MySQLTypeString : Nat := 254
def MySQLTypeGeometry : Nat := 255

/-- `rows_event.go`: `ColumnType` — per-column metadata record (the unused
`name` field kept as bytes).  Go zero values are all 0 / empty. -/
structure ColumnType where
  columnType : Nat := 0
  name : List Nat := []
  unsigned : Bool := false
  maxLength : Nat := 0
  lengthSize : Nat := 0
  precision : Nat := 0
  decimals : Nat := 0
  size : Nat := 0
  bytes : Nat := 0
  bits : Nat := 0
  fsp : Nat := 0
  deriving DecidableEq, Repr

/-- `rows_event.go`: `BinTableMapEvent` (the `BaseEventBody` embedding is
dropped; byte strings are `List Nat`). -/
structure BinTableMapEvent where
  TableID : Nat
  tableIDLen : Nat
  Flags : Nat
  Schema : List Nat
  Table : List Nat
  ColumnCount : Nat
  ColumnTypeDef : List Nat
  ColumnMetaDef : List ColumnType
  NullBitmap : List Nat
  deriving DecidableEq, Repr

/-- Lift a Go panic (`none`) into the error monad. -/
def toExcept (o : Option α) (e : DecodeErr) : Except DecodeErr α :=
  match o with
  | some a => .ok a
  | none => .error e

/-- `rows_event.go`: the body of `(e *BinTableMapEvent) Init(h)` — the
table-id width is 4 when the format description's per-type header length
for `TableMapEvent` is 6, else 6.  Go indexes `h.EventTypeHeader` without
a bounds check; `none` models that panic. -/
def tableMapTableIDLen (h : BinFmtDescEvent) : Option Nat :=
  (h.EventTypeHeader.get? (TableMapEvent - 1)).bind fun b =>
  some (if b = 6 then 4 else 6)

/-- `rows_event.go`: one step of `decodeMeta` — decode the metadata of a
single column of type code `t` at offset `pos`, returning the filled
`ColumnType` and the next offset. -/
def decodeMetaOne (data : List Nat) (pos : Nat) (t : Nat) :
    Except DecodeErr (ColumnType × Nat) :=
  if t = MySQLTypeString then
    match byteAt data pos, byteAt data (pos+1) with
    | some fieldType, some fieldLength =>
      let metadata := fieldType * 256 + fieldLength
      if fieldType = MySQLTypeEnum ∨ fieldType = MySQLTypeSet then
        .ok ({ columnType := fieldType, size := metadata % 256 }, pos + 2)
      else
        .ok ({ maxLength := (Nat.xor (Nat.land (metadata >>> 4) 0x300) 0x300) + metadata % 256 },
             pos + 2)
    | _, _ => .error (.other "panic: column meta")
  else if t = MySQLTypeVarString ∨ t = MySQLTypeVarchar ∨ t = MySQLTypeDecimal then
    match readU16LE data pos with
    | some ml => .ok ({ maxLength := ml }, pos + 2)
    | none => .error (.other "panic: column meta")
  else if t = MySQLTypeBit then
    match byteAt data pos, byteAt data (pos+1) with
    | some bi, some byv =>
      let colBits := (byv * 8 + bi) % 256
      .ok ({ bits := colBits, bytes := ((colBits + 7) % 256) / 8 }, pos + 2)
    | _, _ => .error (.other "panic: column meta")
  else if t = MySQLTypeBlob ∨ t = MySQLTypeGeometry ∨ t = MySQLTypeDouble ∨
          t = MySQLTypeFloat ∨ t = MySQLTypeMediumBlob ∨ t = MySQLTypeTinyBlob ∨
          t = MySQLTypeLongBlob ∨ t = MySQLTypeJSON then
    match byteAt data pos with
    | some ls => .ok ({ lengthSize := ls }, pos + 1)
    | none => .error (.other "panic: column meta")
  else if t = MySQLTypeNewDecimal then
    match byteAt data pos, byteAt data (pos+1) with
    | some p, some d => .ok ({ precision := p, decimals := d }, pos + 2)
    | _, _ => .error (.other "panic: column meta")
  else if t = MySQLTypeTime2 ∨ t = MySQLTypeDatetime2 ∨ t = MySQLTypeTimestamp2 then
    match byteAt data pos with
    | some f => .ok ({ fsp := f }, pos + 1)
    | none => .error (.other "panic: column meta")
  else if t = MySQLTypeDate ∨ t = MySQLTypeDatetime ∨ t = MySQLTypeTimestamp ∨
          t = MySQLTypeTime ∨ t = MySQLTypeTiny ∨ t = MySQLTypeShort ∨
          t = MySQLTypeInt24 ∨ t = MySQLTypeLong ∨ t = MySQLTypeLonglong ∨
          t = MySQLTypeNull ∨ t = MySQLTypeYear ∨ t = MySQLTypeNewDate then
    .ok ({ maxLength := 0 }, pos)
  else .error (.other "unknown FieldType")

/-- `rows_event.go`: the loop of `(e *BinTableMapEvent) decodeMeta(data)`
over the column type codes. -/
def decodeMetaLoop (data : List Nat) : List Nat → Nat → Except DecodeErr (List ColumnType)
  | [], _ => .ok []
  | t :: ts, pos =>
    match decodeMetaOne data pos t with
    | .error e => .error e
    | .ok (c, pos') =>
      match decodeMetaLoop data ts pos' with
      | .error e => .error e
      | .ok cs => .ok (c :: cs)

/-- `rows_event.go`: `decodeTableMapEvent(data, h)` up to (and including)
advancing past the column-metadata region; returns the partially filled
event and the offset where the null bitmap should start. -/
def decodeTableMapEventHead (data : List Nat) (h : BinFmtDescEvent) :
    Except DecodeErr (BinTableMapEvent × Nat) :=
  match tableMapTableIDLen h with
  | none => .error (.other "panic: event type header")
  | some tidLen =>
    match sliceRange data 0 tidLen with
    | none => .error (.other "panic: table id")
    | some tidBytes =>
      match readU16LE data tidLen with
      | none => .error (.other "panic: flags")
      | some flags =>
        match byteAt data (tidLen + 2) with
        | none => .error (.other "panic: schema length")
        | some schemaLength =>
          match sliceRange data (tidLen + 3) (tidLen + 3 + schemaLength) with
          | none => .error (.other "panic: schema")
          | some schema =>
            let p1 := tidLen + 3 + schemaLength + 1
            match byteAt data p1 with
            | none => .error (.other "panic: table length")
            | some tableLength =>
              match sliceRange data (p1 + 1) (p1 + 1 + tableLength) with
              | none => .error (.other "panic: table")
              | some table =>
                let p2 := p1 + 1 + tableLength + 1
                match sliceFrom data p2 with
                | none => .error (.other "panic: column count")
                | some rest =>
                  match LengthEncodedInt rest with
                  | none => .error (.other "panic: column count")
                  | some (cc, _, n) =>
                    let p3 := p2 + n
                    match sliceRange data p3 (p3 + cc) with
                    | none => .error (.other "panic: column types")
                    | some typeDef =>
                      let p4 := p3 + cc
                      match sliceFrom data p4 with
                      | none => .error (.other "panic: column meta")
                      | some rest2 =>
                        match LengthEncodedString rest2 with
                        | none => .error (.other "length encoded string")
                        | some (metaData, _, n2) =>
                          match decodeMetaLoop metaData typeDef 0 with
                          | .error e => .error e
                          | .ok meta =>
                            .ok (⟨FixedLengthInt tidBytes, tidLen, flags, schema,
                                  table, cc, typeDef, meta, []⟩, p4 + n2)

/-- `rows_event.go`: `decodeTableMapEvent(data, h)`.  After the metadata
region, the remaining bytes must have length exactly
`bitmapByteSize(columnCount)`; any other remaining length makes the
decoder return the `io.EOF` sentinel as its error. -/
def decodeTableMapEvent (data : List Nat) (h : BinFmtDescEvent) :
    Except DecodeErr BinTableMapEvent :=
  match decodeTableMapEventHead data h with
  | .error e => .error e
  | .ok (ev, pos) =>
    if (data.drop pos).length = bitmapByteSize ev.ColumnCount then
      .ok { ev with NullBitmap := data.drop pos }
    else .error .ioEOF

/-- `rows_event.go`: `BinRowsEvent` (structural fields only; the decoder
stops at the presence bitmaps). -/
structure BinRowsEvent where
  Version : Nat
  TableID : Nat
  tableIDLen : Nat
  Flags : Nat
  ExtraData : List Nat
  ColumnCount : Nat
  ColumnsBitmap1 : List Nat
  ColumnsBitmap2 : List Nat
  deriving DecidableEq, Repr

/-- `rows_event.go`: the version assignment in
`(e *BinRowsEvent) Init(h, eventType)` (Go zero value 0 when the type is
none of the listed row-event codes). -/
def rowsVersion (typ : Nat) : Nat :=
  if typ = WriteRowsEventV0 ∨ typ = UpdateRowsEventV0 ∨ typ = DeleteRowsEventV0 then 0
  else if typ = WriteRowsEventV1 ∨ typ = UpdateRowsEventV1 ∨ typ = DeleteRowsEventV1 then 1
  else if typ = WriteRowsEventV2 ∨ typ = UpdateRowsEventV2 ∨ typ = DeleteRowsEventV2 then 2
  else 0

/-- The row-mutation event-type codes dispatched by `DecodeEvent`. -/
def isRowsEventType (t : Nat) : Bool :=
  t = WriteRowsEventV0 ∨ t = UpdateRowsEventV0 ∨ t = DeleteRowsEventV0 ∨
  t = WriteRowsEventV1 ∨ t = UpdateRowsEventV1 ∨ t = DeleteRowsEventV1 ∨
  t = WriteRowsEventV2 ∨ t = UpdateRowsEventV2 ∨ t = DeleteRowsEventV2

/-- `rows_event.go`: `decodeRowsEvent(data, h, typ)` up to (and
including) the first presence bitmap: table id (width from the per-type
header-length table, via `Init`), flags, the version-2 extra-data region
(its length field is uint16 and Go subtracts 2 in uint16 arithmetic),
the packed column count and `columns-present-bitmap1`.  Returns
(tableID, tableIDLen, flags, extraData, columnCount, bitmap1) and the
offset right after the first bitmap. -/
def decodeRowsEventHead (data : List Nat) (h : BinFmtDescEvent) (typ : Nat) :
    Except DecodeErr ((Nat × Nat × Nat × List Nat × Nat × List Nat) × Nat) :=
  match h.EventTypeHeader.get? (typ - 1) with
  | none => .error (.other "panic: event type header")
  | some b =>
    let tidLen := if b = 6 then 4 else 6
    match sliceRange data 0 tidLen with
    | none => .error (.other "panic: rows table id")
    | some tidBytes =>
      match readU16LE data tidLen with
      | none => .error (.other "panic: rows flags")
      | some flags =>
        let pos0 := tidLen + 2
        match
          (if rowsVersion typ = 2 then
            match readU16LE data pos0 with
            | none => Except.error (DecodeErr.other "panic: rows extra length")
            | some edl =>
              let m := (edl + 65534) % 65536
              match sliceRange data (pos0 + 2) (pos0 + 2 + m) with
              | none => Except.error (DecodeErr.other "panic: rows extra data")
              | some ex => Except.ok (pos0 + 2 + m, ex)
          else Except.ok (pos0, ([] : List Nat))) with
        | .error e => .error e
        | .ok (pos1, extra) =>
          match sliceFrom data pos1 with
          | none => .error (.other "panic: rows column count")
          | some rest =>
            match LengthEncodedInt rest with
            | none => .error (.other "panic: rows column count")
            | some (cc, _, n) =>
              let pos2 := pos1 + n
              let bitCount := bitmapByteSize cc
              match sliceRange data pos2 (pos2 + bitCount) with
              | none => .error (.other "panic: rows bitmap1")
              | some bm1 =>
                .ok ((FixedLengthInt tidBytes, tidLen, flags, extra, cc, bm1),
                     pos2 + bitCount)

/-- `rows_event.go`: `decodeRowsEvent(data, h, typ)`.  After the first
presence bitmap, `columns-present-bitmap2` (same byte length) is read
only for `UpdateRowsEventV1` and `UpdateRowsEventV2`; otherwise the Go
`ColumnsBitmap2` slice keeps its zero value `nil`. -/
def decodeRowsEvent (data : List Nat) (h : BinFmtDescEvent) (typ : Nat) :
    Except DecodeErr BinRowsEvent :=
  match decodeRowsEventHead data h typ with
  | .error e => .error e
  | .ok ((tid, tidLen, flags, extra, cc, bm1), pos3) =>
    if typ = UpdateRowsEventV1 ∨ typ = UpdateRowsEventV2 then
      match sliceRange data pos3 (pos3 + bitmapByteSize cc) with
      | none => .error (.other "panic: rows bitmap2")
      | some bm2 => .ok ⟨rowsVersion typ, tid, tidLen, flags, extra, cc, bm1, bm2⟩
    else .ok ⟨rowsVersion typ, tid, tidLen, flags, extra, cc, bm1, []⟩

/-- Modelled from the spec (`const.go` is not under `src/`): the checksum
value is the last 4 bytes of the body. -/
def binlogChecksumLength : Nat := 4

/-- One byte of the standard CRC-32 (IEEE, reflected, polynomial
0xEDB88320) update loop. -/
def crc32UpdateByte (crc b : Nat) : Nat :=
  (List.range 8).foldl
    (fun c _ => if c % 2 = 1 then Nat.xor (c / 2) 0xEDB88320 else c / 2)
    (Nat.xor crc b)

/-- Standard CRC-32 (IEEE) of a byte string, as Go `crc32.ChecksumIEEE`. -/
def crc32 (data : List Nat) : Nat :=
  Nat.xor (data.foldl crc32UpdateByte 0xFFFFFFFF) 0xFFFFFFFF

/-- Modelled from the spec (`utils.go` is not under `src/`):
`ChecksumValidate(checksumType, expected, data)` — the checksum is
recomputed (CRC-32, algorithm identifier 1, permitting) over `data` and
compared to the little-endian stored value; other algorithm identifiers
are not verified. -/
def ChecksumValidate (checksumType : Nat) (expected : List Nat) (data : List Nat) : Bool :=
  if checksumType = 1 then crc32 data = FixedLengthInt expected else true

/-- `decoder.go`: `BinaryLogInfo` — the decode context: current format
description and the table-id registry (the Go map is modelled as an
association list where `insert` conses in front, so lookup finds the most
recent binding, matching map-replacement semantics). -/
structure BinaryLogInfo where
  description : Option BinFmtDescEvent
  tableInfo : List (Nat × BinTableMapEvent)
  deriving DecidableEq, Repr

/-- `event.go`: `(event *BinEvent) Validation(bin, header, body)`.
Returns (body for further decoding, ChecksumType, ChecksumVal, error).
With checksums enabled the index is `len(body) - 4 - 1`; the checksum
TYPE byte is read there, the VALUE is the last 4 bytes, and the body is
cut to `body[:index+1]` — i.e. only the last 4 bytes are removed.  The
checksum is recomputed over `header ++ body[:index+1]`.  A body shorter
than 5 bytes makes the Go code index out of range (panic). -/
def Validation (bin : BinaryLogInfo) (eventHeader : BinEventHeader)
    (header body : List Nat) : List Nat × Nat × List Nat × Option DecodeErr :=
  if ((body.length + header.length : Nat) : Int) ≠ eventHeader.EventSize then
    (body, 0, [], some (.other "event size mismatch"))
  else
    match bin.description with
    | none => (body, 0, [], none)
    | some d =>
      if d.hasCheckSum then
        if body.length < binlogChecksumLength + 1 then
          (body, 0, [], some (.other "panic: checksum index"))
        else
          let index := body.length - binlogChecksumLength - 1
          let ct := body.getD index 0
          let cv := body.drop (index + 1)
          let body2 := body.take (index + 1)
          if ¬ ChecksumValidate ct cv (header ++ body2) ∨ cv.length ≠ 4 then
            (body2, ct, cv, some (.other "binlog checksum validation failed"))
          else (body2, ct, cv, none)
      else (body, 0, [], none)

/-- `event.go`: the polymorphic `BinEventBody` interface as a closed
variant. -/
inductive BinEventBody where
  | fmtDesc (d : BinFmtDescEvent)
  | query (q : BinQueryEvent)
  | xid (x : BinXIDEvent)
  | intvar (v : BinIntvarEvent)
  | rotate (r : BinRotateEvent)
  | tableMap (t : BinTableMapEvent)
  | rows (r : BinRowsEvent)
  | unparsed (d : List Nat)
  deriving DecidableEq, Repr

/-- `event.go`: `BinEvent`.  `Body` is `none` until the dispatch step has
set it (Go leaves the interface field nil). -/
structure BinEvent where
  Header : BinEventHeader
  Body : Option BinEventBody
  ChecksumType : Nat
  ChecksumVal : List Nat
  deriving DecidableEq, Repr

/-- `decoder.go`: the decoder state threaded by the embedding: the decode
context plus the remaining bytes of the buffered stream (the file after
the 4-byte magic). -/
structure DecoderState where
  info : BinaryLogInfo
  stream : List Nat
  deriving DecidableEq, Repr

/-- `decoder.go`: the header width used by `DecodeEvent`:
`defaultEventHeaderSize` until a format description has been adopted, then
its `EventHeaderLength`. -/
def currentHeaderLen (info : BinaryLogInfo) : Int :=
  match info.description with
  | some d => d.EventHeaderLength
  | none => defaultEventHeaderSize

/-- `decoder.go`: the `switch event.Header.EventType` dispatch of
`DecodeEvent`, applied after validation.  Returns the next state (context
updated by Format-Description and Table-Map events), the decoded event
and the error, mirroring the Go `(event, err)` pair. -/
def dispatchEvent (st : DecoderState) (header : BinEventHeader) (ct : Nat)
    (cv : List Nat) (data : List Nat) :
    DecoderState × Option BinEvent × Option DecodeErr :=
  if header.EventType = FormatDescriptionEvent then
    match decodeFmtDescEvent data with
    | none => (st, none, some (.other "panic: format description"))
    | some d =>
      ({ st with info := { st.info with description := some d } },
       some ⟨header, some (.fmtDesc d), ct, cv⟩, none)
  else if header.EventType = QueryEvent then
    match st.info.description with
    | none => (st, none, some (.other "panic: nil description"))
    | some d =>
      match decodeQueryEvent data d.BinlogVersion with
      | none => (st, none, some (.other "panic: query event"))
      | some q => (st, some ⟨header, some (.query q), ct, cv⟩, none)
  else if header.EventType = XIDEvent then
    match decodeXIDEvent data with
    | none => (st, none, some (.other "panic: xid event"))
    | some x => (st, some ⟨header, some (.xid x), ct, cv⟩, none)
  else if header.EventType = IntvarEvent then
    match decodeIntvarEvent data with
    | none => (st, none, some (.other "panic: intvar event"))
    | some v => (st, some ⟨header, some (.intvar v), ct, cv⟩, none)
  else if header.EventType = RotateEvent then
    match st.info.description with
    | none => (st, none, some (.other "panic: nil description"))
    | some d =>
      match decodeRotateEvent data d.BinlogVersion with
      | none => (st, none, some (.other "panic: rotate event"))
      | some r => (st, some ⟨header, some (.rotate r), ct, cv⟩, none)
  else if header.EventType = TableMapEvent then
    match st.info.description with
    | none => (st, none, some (.other "panic: nil description"))
    | some d =>
      match decodeTableMapEvent data d with
      | .error e => (st, none, some e)
      | .ok tm =>
        ({ st with info := { st.info with tableInfo := (tm.TableID, tm) :: st.info.tableInfo } },
         some ⟨header, some (.tableMap tm), ct, cv⟩, none)
  else if isRowsEventType header.EventType then
    match st.info.description with
    | none => (st, none, some (.other "panic: nil description"))
    | some d =>
      match decodeRowsEvent data d header.EventType with
      | .error e => (st, none, some e)
      | .ok r => (st, some ⟨header, some (.rows r), ct, cv⟩, none)
  else if header.EventType = PreviousGTIDEvent ∨ header.EventType = AnonymousGTIDEvent then
    (st, some ⟨header, some (.unparsed (decodeUnSupportEvent data)), ct, cv⟩, none)
  else if header.EventType = UnknownEvent then
    (st, none, some (.other "got unknown event"))
  else
    (st, none, some (.other "not support event"))

/-- `decoder.go`: `(decoder *BinFileDecoder) DecodeEvent()`.  Reads and
decodes the header, rejects unknown event-type codes, reads the body,
discards the event (returning `(nil, nil)`) when the window filter's
start condition is unsatisfied and the event is not a Format-Description,
validates, then dispatches. -/
def DecodeEvent (opt : Option BinReaderOption) (st : DecoderState) :
    DecoderState × Option BinEvent × Option DecodeErr :=
  match ReadNBytes st.stream (currentHeaderLen st.info) with
  | .error e => (st, none, some e)
  | .ok (headerData, rest1) =>
    match decodeEventHeader headerData (currentHeaderLen st.info) with
    | none => ({ st with stream := rest1 }, none, some (.other "invalid event header size"))
    | some header =>
      if knownEventType header.EventType = false then
        ({ st with stream := rest1 }, none, some (.other "got unknown event type"))
      else
        match ReadNBytes rest1 (header.EventSize - currentHeaderLen st.info) with
        | .error e => ({ st with stream := rest1 }, none, some e)
        | .ok (data, rest2) =>
          let st2 : DecoderState := { st with stream := rest2 }
          if header.EventType ≠ FormatDescriptionEvent ∧
             BinReaderOption.Start opt header = false then
            (st2, none, none)
          else
            match Validation st.info header headerData data with
            | (_, ct, cv, some e) => (st2, some ⟨header, none, ct, cv⟩, some e)
            | (data2, ct, cv, none) => dispatchEvent st2 header ct cv data2

/-- `decoder.go`: `(decoder *BinFileDecoder) WalkEvent(f)`.  The loop is
given explicit fuel (the Go loop is unbounded; all theorems supply enough
fuel).  Besides the Go return value (`nil` success or the first error) the
embedding also returns the list of events passed to the consumer `f`, in
order, and the final decoder state.  `io.EOF` from `DecodeEvent` is a
normal successful end of the walk. -/
def WalkEvent (f : BinEvent → Bool × Option DecodeErr) (opt : Option BinReaderOption) :
    Nat → DecoderState → Option DecodeErr × List BinEvent × DecoderState
  | 0, st => (some (.other "out of fuel"), [], st)
  | n+1, st =>
    match DecodeEvent opt st with
    | (st', _, some e) => (if e = .ioEOF then none else some e, [], st')
    | (st', none, none) => WalkEvent f opt n st'
    | (st', some ev, none) =>
      if BinReaderOption.Stop opt ev.Header then (none, [], st')
      else
        match f ev with
        | (isContinue, ferr) =>
          if isContinue = false ∨ ferr ≠ none then (ferr, [ev], st')
          else
            match WalkEvent f opt n st' with
            | (r, evs, st'') => (r, ev :: evs, st'')

/-! ### Concrete fixtures

Hand-crafted streams used to evaluate the decoder at concrete inputs: a
format-description event (binlog version 4, server version "5.5.5" so the
checksum suffix is disabled, header length 19, a 40-entry per-type
header-length table of zeros), followed by various second events. -/

/-- A consumer that always continues and never fails. -/
def consumeAll : BinEvent → Bool × Option DecodeErr := fun _ => (true, none)

def fdeBody : List Nat :=
  [4, 0] ++ ([53, 46, 53, 46, 53] ++ List.replicate 45 0) ++ [0, 0, 0, 0] ++ [19] ++
    List.replicate 40 0

def fdeHeaderBytes : List Nat :=
  [0, 0, 0, 0, 15, 1, 0, 0, 0, 116, 0, 0, 0, 120, 0, 0, 0, 0, 0]

def fdeEventBytes : List Nat := fdeHeaderBytes ++ fdeBody

/-- The format description `decodeFmtDescEvent fdeBody` yields. -/
def fdeDecoded : BinFmtDescEvent :=
  ⟨4, [53, 46, 53, 46, 53] ++ List.replicate 45 0, 0, 19, List.replicate 40 0, false⟩

/-- A Query event: empty schema, empty status vars, empty query text;
event size 33, end position 153. -/
def queryEventBytes : List Nat :=
  [0, 0, 0, 0, 2, 1, 0, 0, 0, 33, 0, 0, 0, 153, 0, 0, 0, 0, 0] ++ List.replicate 14 0

/-- Stream: format description then the Query event. -/
def st0 : DecoderState := ⟨⟨none, []⟩, fdeEventBytes ++ queryEventBytes⟩

/-- Decoder state with the format description adopted, about to read the
Query event (end position 153). -/
def stQ153 : DecoderState := ⟨⟨some fdeDecoded, []⟩, queryEventBytes⟩

/-- `stQ153` after the Query event is decoded: stream exhausted, context
unchanged. -/
def stQ153After : DecoderState := ⟨⟨some fdeDecoded, []⟩, []⟩

/-- The decoded Query event of `stQ153`. -/
def qEvent153 : BinEvent := ⟨⟨0, 2, 1, 33, 153, 0⟩, some (.query ⟨0, 0, 0, 0, [], [], []⟩), 0, []⟩

/-- A well-formed Table-Map body: table id 7, flags 1, schema "a", table
"t", one column of type `MySQLTypeLong`, empty metadata, 1-byte null
bitmap. -/
def tableMapBodyGood : List Nat :=
  [7, 0, 0, 0, 0, 0, 1, 0, 1, 97, 0, 1, 116, 0, 1, 3, 0, 1]

/-- The same Table-Map body with a 2-byte trailing region where the null
bitmap must be exactly 1 byte — malformed. -/
def tableMapBodyBad : List Nat :=
  [7, 0, 0, 0, 0, 0, 1, 0, 1, 97, 0, 1, 116, 0, 1, 3, 0, 1, 9]

def tmHeader : BinEventHeader := ⟨0, 19, 1, 37, 157, 0⟩

def tableMapEventBytesGood : List Nat :=
  [0, 0, 0, 0, 19, 1, 0, 0, 0, 37, 0, 0, 0, 157, 0, 0, 0, 0, 0] ++ tableMapBodyGood

def tableMapEventBytesBad : List Nat :=
  [0, 0, 0, 0, 19, 1, 0, 0, 0, 38, 0, 0, 0, 158, 0, 0, 0, 0, 0] ++ tableMapBodyBad

/-- What `decodeTableMapEventHead tableMapBodyBad fdeDecoded` (and the
good body) decode before the bitmap check: the one column of type 3 has
all-zero metadata. -/
def tmHeadEv : BinTableMapEvent := ⟨7, 6, 1, [97], [116], 1, [3], [{}], []⟩

/-- `decodeTableMapEvent tableMapBodyGood fdeDecoded` (bitmap filled in). -/
def tmDecoded : BinTableMapEvent := ⟨7, 6, 1, [97], [116], 1, [3], [{}], [1]⟩

/-- Decoder state with the format description adopted, about to read the
well-formed Table-Map event. -/
def stT : DecoderState := ⟨⟨some fdeDecoded, []⟩, tableMapEventBytesGood⟩

/-- The state after decoding the Table-Map event of `stT`: its schema is
registered under table id 7. -/
def stAfterTM : DecoderState := ⟨⟨some fdeDecoded, [(7, tmDecoded)]⟩, []⟩

def tmEvent : BinEvent := ⟨tmHeader, some (.tableMap tmDecoded), 0, []⟩

/-- An option whose start time is in the future (Unix second 1000) with no
start position: the start condition is unsatisfied for timestamp-0 events. -/
def optFuture : BinReaderOption := ⟨0, 0, ⟨1000, false⟩, goZeroTime⟩

/-- An option with a stop position of 130, below the Table-Map event's end
position 157. -/
def optStop : BinReaderOption := ⟨0, 130, goZeroTime, goZeroTime⟩

/-- A WriteRowsEventV1 body for table id 5 (never registered): flags 0,
2 columns, one presence bitmap. -/
def rowsEventBytesW1 : List Nat :=
  [0, 0, 0, 0, 23, 1, 0, 0, 0, 29, 0, 0, 0, 149, 0, 0, 0, 0, 0] ++
    [5, 0, 0, 0, 0, 0, 0, 0, 2, 3]

/-- An UpdateRowsEventV0 body: table id 9, flags 0, 1 column, one
presence bitmap. -/
def updateV0Body : List Nat := [9, 0, 0, 0, 0, 0, 0, 0, 1, 1]

/-- A 19-byte event header byte string for the checksum fixture (an XID
event of size 27, end position 180). -/
def hdrC4 : List Nat := [0, 0, 0, 0, 16, 1, 0, 0, 0, 27, 0, 0, 0, 180, 0, 0, 0, 0, 0]

def ehC4 : BinEventHeader := ⟨0, 16, 1, 27, 180, 0⟩

/-- An 8-byte body: a 3-byte payload, the checksum-algorithm byte 1
(CRC-32), then the little-endian CRC-32 of `hdrC4 ++ [10, 20, 30, 1]` —
i.e. of the header plus the body with only the last 4 bytes removed,
which is what the code checksums. -/
def bodyC4 : List Nat := [10, 20, 30, 1] ++ [236, 97, 243, 247]

/-- A context whose format description has checksums enabled. -/
def infoC4 : BinaryLogInfo := ⟨some { fdeDecoded with hasCheckSum := true }, []⟩

/-! ### Helper lemmas -/

theorem byteAt_some : ∀ (data : List Nat) (i : Nat), i < data.length →
    byteAt data i = some (data.getD i 0)
  | _ :: _, 0, _ => rfl
  | _ :: l, i+1, h => byteAt_some l i (Nat.lt_of_succ_lt_succ h)

theorem readU16LE_some {data : List Nat} {i : Nat} (h : i + 2 ≤ data.length) :
    readU16LE data i = some (u16at data i) := by
  simp [readU16LE, h]

theorem readU32LE_some {data : List Nat} {i : Nat} (h : i + 4 ≤ data.length) :
    readU32LE data i = some (u32at data i) := by
  simp [readU32LE, h]

theorem readU64LE_some {data : List Nat} {i : Nat} (h : i + 8 ≤ data.length) :
    readU64LE data i = some (u64at data i) := by
  simp [readU64LE, h]

theorem sliceRange_length {data : List Nat} {a b : Nat} {l : List Nat}
    (h : sliceRange data a b = some l) : l.length = b - a := by
  unfold sliceRange at h
  split at h
  · cases h
    rename_i hc
    simp only [List.length_drop, List.length_take]
    omega
  · cases h

/-! ### Theorems about the claims -/

/-- C6 (confirmed): the event-header codec decodes, in order, a 4-byte
little-endian timestamp, a 1-byte event-type code, a 4-byte server id and
a 4-byte event size, then — only when the header width exceeds 13 — a
4-byte log position and 2-byte flags (zero otherwise); it fails when
fewer than `headerWidth` bytes are supplied; and on the 19-byte scenario
input it yields timestamp 100, eventType 2, serverId 1, eventSize 19,
logPos 19, flags 0. -/
theorem decodeEventHeader_layout :
    (∀ (data : List Nat) (size : Int), (data.length : Int) < size →
        decodeEventHeader data size = none) ∧
    (∀ (data : List Nat) (size : Int), 13 < size → size ≤ (data.length : Int) →
        19 ≤ data.length →
        decodeEventHeader data size =
          some ⟨(u32at data 0 : Int), data.getD 4 0, (u32at data 5 : Int),
                (u32at data 9 : Int), (u32at data 13 : Int), u16at data 17⟩) ∧
    (∀ (data : List Nat) (size : Int), size ≤ 13 → size ≤ (data.length : Int) →
        13 ≤ data.length →
        decodeEventHeader data size =
          some ⟨(u32at data 0 : Int), data.getD 4 0, (u32at data 5 : Int),
                (u32at data 9 : Int), 0, 0⟩) ∧
    decodeEventHeader
        [0x64, 0, 0, 0, 0x02, 0x01, 0, 0, 0, 0x13, 0, 0, 0, 0x13, 0, 0, 0, 0x00, 0x00] 19 =
      some ⟨100, 2, 1, 19, 19, 0⟩ := by
  refine ⟨?_, ?_, ?_, by decide⟩
  · intro data size h
    unfold decodeEventHeader
    rw [if_pos h]
  · intro data size h13 hsz h19
    unfold decodeEventHeader
    rw [if_neg (by omega), readU32LE_some (by omega), byteAt_some data 4 (by omega),
        readU32LE_some (by omega), readU32LE_some (by omega)]
    simp only [Option.some_bind]
    rw [if_pos h13, readU32LE_some (by omega), readU16LE_some (by omega)]
    simp only [Option.some_bind]
  · intro data size h13 hsz h13'
    unfold decodeEventHeader
    rw [if_neg (by omega), readU32LE_some (by omega), byteAt_some data 4 (by omega),
        readU32LE_some (by omega), readU32LE_some (by omega)]
    simp only [Option.some_bind]
    rw [if_neg (by omega)]

theorem decodeEventHeader_layout_witness :
    decodeEventHeader [1] 2 = none ∧
    decodeEventHeader [100, 0, 0, 0, 2, 1, 0, 0, 0, 19, 0, 0, 0] 13 =
      some ⟨100, 2, 1, 19, 0, 0⟩ := by
  refine ⟨decodeEventHeader_layout.1 [1] 2 (by decide), ?_⟩
  rw [decodeEventHeader_layout.2.2.1 [100, 0, 0, 0, 2, 1, 0, 0, 0, 19, 0, 0, 0] 13
    (by decide) (by decide) (by decide)]
  decide

/-- C7 counterexample: under protocol version 1 the decoded Rotate event
has `Position = 0` (the Go zero value), not 4, and the file name
`[0x20, 0x61]` (" a") loses its LEADING space too — `strings.TrimSpace`
trims both sides, so the result differs from a right-trim, which would
have kept `[32, 97]` unchanged. -/
theorem rotate_v1_counterexample :
    decodeRotateEvent [32, 97] 1 = some ⟨0, [97]⟩ ∧
    trimRightSpace [32, 97] = [32, 97] := by
  exact ⟨rfl, by decide⟩

/-- C7 (corrected): under protocol version > 1 the first 8 bytes are the
little-endian next-file position and the remaining bytes the next file
name trimmed of whitespace on BOTH sides; under version ≤ 1 the position
field is absent from the body and keeps its zero value 0 (not 4). -/
theorem rotate_amended (data : List Nat) (binlogVersion : Nat) :
    (1 < binlogVersion → 8 ≤ data.length →
        decodeRotateEvent data binlogVersion =
          some ⟨u64at data 0, TrimSpace (data.drop 8)⟩) ∧
    (binlogVersion ≤ 1 →
        decodeRotateEvent data binlogVersion = some ⟨0, TrimSpace data⟩) := by
  constructor
  · intro h1 h8
    unfold decodeRotateEvent
    rw [if_pos h1, readU64LE_some (by omega)]
    rfl
  · intro h1
    unfold decodeRotateEvent
    rw [if_neg (by omega)]

theorem rotate_amended_witness :
    decodeRotateEvent [2, 0, 0, 0, 0, 0, 0, 0, 32, 97, 32] 4 = some ⟨2, [97]⟩ := by
  rw [(rotate_amended [2, 0, 0, 0, 0, 0, 0, 0, 32, 97, 32] 4).1 (by decide) (by decide)]
  decide

/-- C8 counterexample: an `UpdateRowsEventV0` (version 0 Update) decodes
successfully with NO second column-presence bitfield — `ColumnsBitmap2`
keeps the Go zero value — because the decoder materializes a second
bitfield only for `UpdateRowsEventV1` and `UpdateRowsEventV2`. -/
theorem update_v0_bitmap_counterexample :
    decodeRowsEvent updateV0Body fdeDecoded UpdateRowsEventV0 =
      .ok ⟨0, 9, 6, 0, [], 1, [1], []⟩ := by
  rfl

/-- C8 (corrected): for every successfully decoded row-mutation event, a
second column-presence bitfield of byte length
`bitmapByteSize columnCount` immediately following the first is produced
exactly for `UpdateRowsEventV1` and `UpdateRowsEventV2`; for Write and
Delete events of every version AND for `UpdateRowsEventV0` no second
bitfield is produced (it stays empty). -/
theorem update_bitmap_amended (data : List Nat) (h : BinFmtDescEvent) (typ : Nat)
    (ev : BinRowsEvent) (hok : decodeRowsEvent data h typ = .ok ev) :
    (typ = UpdateRowsEventV1 ∨ typ = UpdateRowsEventV2 →
        ev.ColumnsBitmap2.length = bitmapByteSize ev.ColumnCount) ∧
    (¬ (typ = UpdateRowsEventV1 ∨ typ = UpdateRowsEventV2) →
        ev.ColumnsBitmap2 = []) := by
  unfold decodeRowsEvent at hok
  repeat
    first
      | exact Except.noConfusion hok
      | split at hok
  all_goals cases hok
  · refine ⟨fun _ => ?_, fun hne => absurd (by assumption) hne⟩
    have h' := sliceRange_length (by assumption)
    dsimp only at h' ⊢
    omega
  · exact ⟨fun hcond => absurd hcond (by assumption), fun _ => rfl⟩

theorem update_bitmap_amended_witness :
    ([3] : List Nat).length = bitmapByteSize 1 := by
  have h := update_bitmap_amended [9, 0, 0, 0, 0, 0, 0, 0, 1, 1, 3] fdeDecoded
    UpdateRowsEventV1 ⟨1, 9, 6, 0, [], 1, [1], [3]⟩ (by rfl)
  simpa using h.1 (Or.inl rfl)

/-- C4 counterexample: with checksums enabled, validation of the concrete
8-byte body `bodyC4` SUCCEEDS and hands the type-specific decoder the
body `[10, 20, 30, 1]` — length `8 - 4`, still ending in the
checksum-algorithm byte `1` — not the 3-byte prefix excluding all 5
trailing bytes that the claim requires; the recomputed checksum that
matched was taken over the header plus this 4-byte-trimmed body. -/
theorem checksum_trim_counterexample :
    Validation infoC4 ehC4 hdrC4 bodyC4 = ([10, 20, 30, 1], 1, [236, 97, 243, 247], none) ∧
    ([10, 20, 30, 1] : List Nat).length ≠ bodyC4.length - 5 := by
  exact ⟨rfl, by decide⟩

/-- C4 (corrected): for every event validated while checksums are
enabled, the 5th-from-last byte of the body is split off as the
algorithm-identifier byte and the last 4 bytes as the checksum value, but
the body passed to the type-specific decoder is the prefix excluding only
the last 4 bytes (the algorithm byte stays in it), and the checksum is
recomputed over the header bytes concatenated with that 4-byte-trimmed
body; validation fails exactly when that recomputation disagrees with the
stored value. -/
theorem checksum_trim_amended (bin : BinaryLogInfo) (d : BinFmtDescEvent)
    (eventHeader : BinEventHeader) (header body : List Nat)
    (hdesc : bin.description = some d) (hcs : d.hasCheckSum = true)
    (hsize : ((body.length + header.length : Nat) : Int) = eventHeader.EventSize)
    (hlen : 5 ≤ body.length) :
    Validation bin eventHeader header body =
      (body.take (body.length - 4), body.getD (body.length - 5) 0,
       body.drop (body.length - 4),
       if ChecksumValidate (body.getD (body.length - 5) 0)
            (body.drop (body.length - 4)) (header ++ body.take (body.length - 4))
       then none else some (.other "binlog checksum validation failed")) := by
  unfold Validation
  rw [if_neg (not_not_intro hsize), hdesc]
  dsimp only
  rw [if_pos hcs, if_neg (show ¬ body.length < binlogChecksumLength + 1 by
    simp only [binlogChecksumLength]; omega)]
  have h1 : body.length - binlogChecksumLength - 1 + 1 = body.length - 4 := by
    simp only [binlogChecksumLength]; omega
  have h2 : body.length - binlogChecksumLength - 1 = body.length - 5 := by
    simp only [binlogChecksumLength]; omega
  rw [h1, h2]
  have h3 : ¬ (body.drop (body.length - 4)).length ≠ 4 := by
    simp only [List.length_drop]; omega
  by_cases hX : ChecksumValidate (body.getD (body.length - 5) 0)
      (body.drop (body.length - 4)) (header ++ body.take (body.length - 4)) = true
  · rw [if_neg (not_or_intro (not_not_intro hX) h3), if_pos hX]
  · rw [if_pos (Or.inl hX), if_neg hX]

theorem checksum_trim_amended_witness :
    Validation infoC4 ehC4 hdrC4 bodyC4 =
      (bodyC4.take (bodyC4.length - 4), bodyC4.getD (bodyC4.length - 5) 0,
       bodyC4.drop (bodyC4.length - 4),
       if ChecksumValidate (bodyC4.getD (bodyC4.length - 5) 0)
            (bodyC4.drop (bodyC4.length - 4)) (hdrC4 ++ bodyC4.take (bodyC4.length - 4))
       then none else some (.other "binlog checksum validation failed")) :=
  checksum_trim_amended infoC4 { fdeDecoded with hasCheckSum := true } ehC4 hdrC4 bodyC4
    rfl rfl (by decide) (by decide)

/-- C2 counterexample: a walk configured with `startPos = 1000` and no
start time (the zero `time.Time`) does NOT discard the Query event whose
start offset `logPos − eventSize = 153 − 33 = 120` lies below 1000: the
walk delivers both the format description (type 15, offset 4) and the
Query event (type 2, offset 120) to the consumer, because the zero start
time's Unix value is ≤ every event timestamp. -/
theorem start_filter_counterexample :
    (WalkEvent consumeAll (some ⟨1000, 0, goZeroTime, goZeroTime⟩) 3 st0).1 = none ∧
    ((WalkEvent consumeAll (some ⟨1000, 0, goZeroTime, goZeroTime⟩) 3 st0).2.1.map
        (fun e => (e.Header.EventType, e.Header.LogPos - e.Header.EventSize))) =
      [(15, 4), (2, 120)] := by
  exact ⟨rfl, by decide⟩

/-- C2 (corrected): for a walk configured with a nonzero `startPos` and
no start time, the start condition is satisfied by EVERY event whose
timestamp is nonnegative (which every wire timestamp is, being a 32-bit
unsigned value), because the unset start time's `Unix()` value,
-62135596800, is ≤ the timestamp; consequently no event is discarded by
the window filter.  In particular an event whose start offset is at least
`startPos` — e.g. one exactly at `startPos` — is within the window. -/
theorem start_filter_amended (o : BinReaderOption) (header : BinEventHeader)
    (hpos : o.StartPos ≠ 0) (htime : o.StartTime = goZeroTime)
    (hts : 0 ≤ header.Timestamp) :
    BinReaderOption.Start (some o) header = true := by
  simp only [BinReaderOption.Start]
  by_cases h1 : o.StartPos ≠ 0 ∧ o.StartPos ≤ header.LogPos - header.EventSize
  · rw [if_pos h1]
  · rw [if_neg h1, if_pos (show o.StartTime.unix ≤ header.Timestamp by
      rw [htime]; simp only [goZeroTime, goZeroTimeUnix]; omega)]

theorem start_filter_amended_witness :
    BinReaderOption.Start (some ⟨1000, 0, goZeroTime, goZeroTime⟩) ⟨0, 2, 1, 33, 153, 0⟩ =
      true :=
  start_filter_amended ⟨1000, 0, goZeroTime, goZeroTime⟩ ⟨0, 2, 1, 33, 153, 0⟩
    (by decide) rfl (by decide)

/-- C5 counterexample: a walk configured with `endPos = 153` (and no end
time) still invokes the consumer for the Query event whose `logPos` is
exactly 153: the stop condition compares with strict `endPos < logPos`,
so the event at the boundary is delivered, not excluded. -/
theorem stop_boundary_counterexample :
    (WalkEvent consumeAll (some ⟨0, 153, goZeroTime, goZeroTime⟩) 3 st0).1 = none ∧
    ((WalkEvent consumeAll (some ⟨0, 153, goZeroTime, goZeroTime⟩) 3 st0).2.1.map
        (fun e => (e.Header.EventType, e.Header.LogPos))) = [(15, 120), (2, 153)] := by
  exact ⟨rfl, by decide⟩

/-- C5 (corrected): with a nonzero `endPos`, a decoded event whose
`logPos` is strictly greater than `endPos` ends the walk without the
consumer being invoked for it; but an event whose `logPos` EQUALS
`endPos` (end time unset) does not satisfy the stop condition and IS
passed to the consumer. -/
theorem stop_boundary_amended (f : BinEvent → Bool × Option DecodeErr)
    (opt : BinReaderOption) (n : Nat) (st st' : DecoderState) (ev : BinEvent)
    (hdec : DecodeEvent (some opt) st = (st', some ev, none)) :
    (opt.EndPos ≠ 0 → opt.EndPos < ev.Header.LogPos →
        WalkEvent f (some opt) (n+1) st = (none, [], st')) ∧
    (ev.Header.LogPos = opt.EndPos → opt.EndTime.isZero = true → f ev = (true, none) →
        WalkEvent f (some opt) (n+1) st =
          ((WalkEvent f (some opt) n st').1,
           ev :: (WalkEvent f (some opt) n st').2.1,
           (WalkEvent f (some opt) n st').2.2)) := by
  constructor
  · intro hne hlt
    simp only [WalkEvent, hdec]
    rw [if_pos (show BinReaderOption.Stop (some opt) ev.Header = true by
      simp only [BinReaderOption.Stop]
      rw [if_pos ⟨hne, hlt⟩])]
  · intro heq hz hf
    simp only [WalkEvent, hdec]
    rw [if_neg (show ¬ BinReaderOption.Stop (some opt) ev.Header = true by
      simp only [BinReaderOption.Stop]
      rw [if_neg (show ¬ (opt.EndPos ≠ 0 ∧ opt.EndPos < ev.Header.LogPos) by omega),
          if_neg (by simp [hz])]
      simp)]
    simp [hf]

theorem stop_boundary_amended_witness :
    WalkEvent consumeAll (some ⟨0, 100, goZeroTime, goZeroTime⟩) 1 stQ153 =
      (none, [], stQ153After) :=
  (stop_boundary_amended consumeAll ⟨0, 100, goZeroTime, goZeroTime⟩ 0 stQ153
    stQ153After qEvent153 (by rfl)).1 (by decide) (by decide)

/-- C1 counterexample: a walk over a format description followed by a
`WriteRowsEventV1` for table id 5 — never registered by any table-map
event — terminates without error and DELIVERS the successfully decoded
row-mutation event to the consumer (its structural payload included),
while the table registry stays empty; no `UnknownTable` failure exists. -/
theorem unknown_table_counterexample :
    (WalkEvent consumeAll none 3 ⟨⟨none, []⟩, fdeEventBytes ++ rowsEventBytesW1⟩).1 = none ∧
    ((WalkEvent consumeAll none 3 ⟨⟨none, []⟩, fdeEventBytes ++ rowsEventBytesW1⟩).2.1.map
        (fun e => e.Body)).get? 1 =
      some (some (.rows ⟨1, 5, 6, 0, [], 2, [3], []⟩)) ∧
    (WalkEvent consumeAll none 3
        ⟨⟨none, []⟩, fdeEventBytes ++ rowsEventBytesW1⟩).2.2.info.tableInfo = [] := by
  exact ⟨rfl, by decide, rfl⟩

/-- C1 (corrected): decoding a row-mutation event never consults the
table registry at all — the dispatch outcome (decoded event and error)
for a row-mutation event type is identical for ANY two registry contents,
so an unregistered table id cannot make it fail; the decode either
succeeds or fails for reasons independent of the registry. -/
theorem unknown_table_amended (dsc : BinFmtDescEvent)
    (tables1 tables2 : List (Nat × BinTableMapEvent)) (stream1 stream2 : List Nat)
    (header : BinEventHeader) (ct : Nat) (cv data : List Nat)
    (ht : isRowsEventType header.EventType = true) :
    (dispatchEvent ⟨⟨some dsc, tables1⟩, stream1⟩ header ct cv data).2 =
    (dispatchEvent ⟨⟨some dsc, tables2⟩, stream2⟩ header ct cv data).2 := by
  have hd : header.EventType = 20 ∨ header.EventType = 21 ∨ header.EventType = 22 ∨
      header.EventType = 23 ∨ header.EventType = 24 ∨ header.EventType = 25 ∨
      header.EventType = 30 ∨ header.EventType = 31 ∨ header.EventType = 32 := by
    simpa [isRowsEventType, WriteRowsEventV0, UpdateRowsEventV0, DeleteRowsEventV0,
      WriteRowsEventV1, UpdateRowsEventV1, DeleteRowsEventV1, WriteRowsEventV2,
      UpdateRowsEventV2, DeleteRowsEventV2] using ht
  unfold dispatchEvent
  rw [if_neg (show ¬ header.EventType = FormatDescriptionEvent by
        simp only [FormatDescriptionEvent]; omega),
      if_neg (show ¬ header.EventType = FormatDescriptionEvent by
        simp only [FormatDescriptionEvent]; omega),
      if_neg (show ¬ header.EventType = QueryEvent by simp only [QueryEvent]; omega),
      if_neg (show ¬ header.EventType = QueryEvent by simp only [QueryEvent]; omega),
      if_neg (show ¬ header.EventType = XIDEvent by simp only [XIDEvent]; omega),
      if_neg (show ¬ header.EventType = XIDEvent by simp only [XIDEvent]; omega),
      if_neg (show ¬ header.EventType = IntvarEvent by simp only [IntvarEvent]; omega),
      if_neg (show ¬ header.EventType = IntvarEvent by simp only [IntvarEvent]; omega),
      if_neg (show ¬ header.EventType = RotateEvent by simp only [RotateEvent]; omega),
      if_neg (show ¬ header.EventType = RotateEvent by simp only [RotateEvent]; omega),
      if_neg (show ¬ header.EventType = TableMapEvent by simp only [TableMapEvent]; omega),
      if_neg (show ¬ header.EventType = TableMapEvent by simp only [TableMapEvent]; omega),
      if_pos ht, if_pos ht]
  dsimp only
  cases hr : decodeRowsEvent data dsc header.EventType <;> rfl

theorem unknown_table_amended_witness :
    (dispatchEvent ⟨⟨some fdeDecoded, []⟩, []⟩ ⟨0, 23, 1, 29, 149, 0⟩ 0 []
        [5, 0, 0, 0, 0, 0, 0, 0, 2, 3]).2 =
    (dispatchEvent ⟨⟨some fdeDecoded, [(7, tmDecoded)]⟩, []⟩ ⟨0, 23, 1, 29, 149, 0⟩ 0 []
        [5, 0, 0, 0, 0, 0, 0, 0, 2, 3]).2 :=
  unknown_table_amended fdeDecoded [] [(7, tmDecoded)] [] [] ⟨0, 23, 1, 29, 149, 0⟩ 0 []
    [5, 0, 0, 0, 0, 0, 0, 0, 2, 3] (by decide)

/-- C3 counterexample: the Table-Map event body `tableMapBodyBad` leaves
2 trailing bytes where `ceil(1/8) = 1` is required, so decoding fails —
but with the `io.EOF` sentinel, which `WalkEvent` treats as a NORMAL end
of stream: the walk over a format description followed by that malformed
event returns success (no error), not the decode failure the claim
requires. -/
theorem tablemap_bitmap_counterexample :
    decodeTableMapEvent tableMapBodyBad fdeDecoded = .error .ioEOF ∧
    (WalkEvent consumeAll none 3
        ⟨⟨none, []⟩, fdeEventBytes ++ tableMapEventBytesBad⟩).1 = none := by
  exact ⟨rfl, rfl⟩

/-- C3 (corrected): a table-map body whose remaining bytes after the
metadata region do not have length exactly `ceil(columnCount/8)` makes
the decoder return an error — but that error is the `io.EOF` sentinel,
and the walk maps `io.EOF` from the decode step to a normal successful
end-of-stream termination instead of reporting a failure. -/
theorem tablemap_bitmap_amended :
    (∀ (data : List Nat) (h : BinFmtDescEvent) (ev : BinTableMapEvent) (pos : Nat),
        decodeTableMapEventHead data h = .ok (ev, pos) →
        (data.drop pos).length ≠ bitmapByteSize ev.ColumnCount →
        decodeTableMapEvent data h = .error .ioEOF) ∧
    (∀ (f : BinEvent → Bool × Option DecodeErr) (opt : Option BinReaderOption)
        (n : Nat) (st st' : DecoderState) (b : Option BinEvent),
        DecodeEvent opt st = (st', b, some .ioEOF) →
        WalkEvent f opt (n+1) st = (none, [], st')) := by
  constructor
  · intro data h ev pos hok hne
    unfold decodeTableMapEvent
    rw [hok]
    dsimp only
    rw [if_neg hne]
  · intro f opt n st st' b hdec
    simp only [WalkEvent, hdec]
    simp

theorem tablemap_bitmap_amended_witness :
    decodeTableMapEvent tableMapBodyBad fdeDecoded = .error .ioEOF ∧
    WalkEvent consumeAll none 1 ⟨⟨some fdeDecoded, []⟩, tableMapEventBytesBad⟩ =
      (none, [], ⟨⟨some fdeDecoded, []⟩, []⟩) :=
  ⟨tablemap_bitmap_amended.1 tableMapBodyBad fdeDecoded tmHeadEv 17 (by rfl) (by decide),
   tablemap_bitmap_amended.2 consumeAll none 0 ⟨⟨some fdeDecoded, []⟩, tableMapEventBytesBad⟩
     ⟨⟨some fdeDecoded, []⟩, []⟩ none (by rfl)⟩

/-- C9 (confirmed): when the window's start condition is unsatisfied and
the event is not a Format-Description, `DecodeEvent` returns no event and
no error right after reading the body: the decode context (format
description AND table registry) is returned unchanged, and no size or
checksum validation is performed on the skipped event (the outcome holds
with no hypothesis about validation succeeding). -/
theorem skip_no_side_effect (opt : Option BinReaderOption) (st : DecoderState)
    (hd r1 d r2 : List Nat) (header : BinEventHeader)
    (h1 : ReadNBytes st.stream (currentHeaderLen st.info) = .ok (hd, r1))
    (h2 : decodeEventHeader hd (currentHeaderLen st.info) = some header)
    (h3 : knownEventType header.EventType = true)
    (h4 : ReadNBytes r1 (header.EventSize - currentHeaderLen st.info) = .ok (d, r2))
    (h5 : header.EventType ≠ FormatDescriptionEvent)
    (h6 : BinReaderOption.Start opt header = false) :
    DecodeEvent opt st = (⟨st.info, r2⟩, none, none) := by
  unfold DecodeEvent
  rw [h1]
  dsimp only
  rw [h2]
  dsimp only
  rw [if_neg (by simp [h3]), h4]
  dsimp only
  rw [if_pos ⟨h5, h6⟩]

/-- The skipped event of the witness is a Table-Map for table id 7: its
schema is NOT registered. -/
theorem skip_no_side_effect_witness :
    DecodeEvent (some optFuture) stT = (⟨stT.info, []⟩, none, none) ∧
    List.lookup 7 stT.info.tableInfo = none :=
  ⟨skip_no_side_effect (some optFuture) stT
      [0, 0, 0, 0, 19, 1, 0, 0, 0, 37, 0, 0, 0, 157, 0, 0, 0, 0, 0] tableMapBodyGood
      tableMapBodyGood [] tmHeader rfl rfl rfl rfl (by decide) (by decide), rfl⟩

/-- C10 (confirmed): the stop condition is evaluated only after
`DecodeEvent` has fully decoded and dispatched the event, so when a
decoded event satisfies the stop condition the walk finishes immediately
— without invoking the consumer — in the ALREADY-MUTATED state `st'`
produced by `DecodeEvent` (which contains the format-description
replacement or table-schema registration the event caused). -/
theorem stop_after_dispatch (f : BinEvent → Bool × Option DecodeErr)
    (opt : Option BinReaderOption) (n : Nat) (st st' : DecoderState) (ev : BinEvent)
    (hdec : DecodeEvent opt st = (st', some ev, none))
    (hstop : BinReaderOption.Stop opt ev.Header = true) :
    WalkEvent f opt (n+1) st = (none, [], st') := by
  simp only [WalkEvent, hdec]
  rw [if_pos hstop]

/-- The stopping event of the witness is a Table-Map past the stop
position (157 > 130): the walk ends with its schema registered. -/
theorem stop_after_dispatch_witness :
    WalkEvent consumeAll (some optStop) 1 stT = (none, [], stAfterTM) ∧
    List.lookup 7 stAfterTM.info.tableInfo = some tmDecoded :=
  ⟨stop_after_dispatch consumeAll (some optStop) 0 stT stAfterTM tmEvent (by rfl)
      (by decide), rfl⟩

end Binlog
